import Mathlib

/-!
Verification of the scope-hoisting transform of the parcel bundler
(src/packages/shared/scope-hoisting/src/hoist.js) against its
natural-language specification.

The development shallowly embeds the part of the babel AST that the
transform inspects and rewrites, together with the visitor handlers of
hoist.js, as executable Lean functions:

* a JS expression/statement fragment (identifiers, literals, member
  accesses with static or computed properties, typeof, assignments,
  calls, await, object literals, function expressions, arrow functions,
  variable declarations with identifier or object patterns, return
  statements, function declarations, and bare import declarations);
* the Program.enter pre-scan (hoist.js lines 104-250), including its
  stop-at-first-trigger semantics (path.stop), the free-module /
  top-level-return / unshadowed-eval wrap triggers, the exports bail-out
  analysis, and the CommonJS default;
* the body-walk handlers: ReferencedIdentifier, MemberExpression,
  ThisExpression, AssignmentExpression, UnaryExpression (typeof), the
  CallExpression require / import() / require.resolve handler, and the
  (specifier-free) ImportDeclaration handler;
* the Program.exit finalizer: the closure wrapper on shouldWrap, and
  otherwise the top-level renamer, the synthesized exports object, and
  the final symbol-table update.

Scoping is modelled by threading the list of locally bound names: babel's
scope.hasBinding(name) holds for a name bound by an enclosing function's
parameters, hoisted var/function declarations, or program-level
declarations (babel's built-in globals list contains none of the names
the transform queries: module, exports, require, eval, global).

The helpers getName / getIdentifier / getExportIdentifier and the renamer
live in files of the repository that are not part of the provided
sources (scope-hoisting/src/utils.js and renamer.js); those are modelled
from the spec, as marked on their definitions.
-/

namespace Hoist

/-- Key of an object-pattern property: an identifier key or a string key. -/
inductive PatKey where
  | id (name : String)
  | strKey (s : String)
deriving DecidableEq

/-- One property of an object pattern: a (key : value-binding) pair or a
rest element. The value is the name the pattern binds. -/
inductive PatProp where
  | prop (key : PatKey) (value : String)
  | rest (name : String)
deriving DecidableEq

/-- Binding pattern of a variable declarator. -/
inductive JSPat where
  | id (name : String)
  | objPat (props : List PatProp)
deriving DecidableEq

mutual
/-- The expression fragment of the babel AST inspected by hoist.js. -/
inductive JSExpr where
  | ident (name : String)
  | num (n : Int)
  | str (s : String)
  | boolLit (b : Bool)
  | thisE
  | objLit (fields : JSFieldList)
  | member (obj : JSExpr) (prop : JSProp)
  | typeofE (arg : JSExpr)
  | assign (left right : JSExpr)
  | call (callee : JSExpr) (args : JSExprList)
  | awaitE (arg : JSExpr)
  | funcExpr (params : List String) (body : JSStmtList)
  | arrowFunc (params : List String) (body : JSStmtList)

/-- Property position of a member expression: a static (dot) property, a
computed string-literal index, or a general computed index. -/
inductive JSProp where
  | static (name : String)
  | strIdx (s : String)
  | comp (e : JSExpr)

/-- List of call arguments. -/
inductive JSExprList where
  | nil
  | cons (head : JSExpr) (tail : JSExprList)

/-- Fields of an object literal (identifier keys). -/
inductive JSFieldList where
  | nil
  | cons (key : String) (value : JSExpr) (tail : JSFieldList)

/-- The statement fragment of the babel AST inspected by hoist.js.
importDecl models a bare (specifier-free) import declaration. -/
inductive JSStmt where
  | exprStmt (e : JSExpr)
  | varDeclInit (pat : JSPat) (init : JSExpr)
  | varDeclBare (pat : JSPat)
  | ret (arg : JSExpr)
  | retVoid
  | funcDecl (name : String) (params : List String) (body : JSStmtList)
  | importDecl (source : String)

/-- Program and function bodies. -/
inductive JSStmtList where
  | nil
  | cons (head : JSStmt) (tail : JSStmtList)
end

deriving instance DecidableEq for JSExpr
deriving instance DecidableEq for JSProp
deriving instance DecidableEq for JSExprList
deriving instance DecidableEq for JSFieldList
deriving instance DecidableEq for JSStmt
deriving instance DecidableEq for JSStmtList

/-- Concatenation of statement lists. -/
def JSStmtList.append : JSStmtList → JSStmtList → JSStmtList
  | .nil, l => l
  | .cons h t, l => .cons h (t.append l)

/-- Names bound by a binding pattern. -/
def patNames : JSPat → List String
  | .id n => [n]
  | .objPat ps =>
    ps.foldr
      (fun p acc =>
        match p with
        | .prop _ v => v :: acc
        | .rest n => n :: acc)
      []

/-- The bindings a scope.crawl() of a program or function body collects at
that scope: names declared by variable declarations and by function
declarations (the flat statement fragment has no nested blocks). -/
def collectVars : JSStmtList → List String
  | .nil => []
  | .cons s t =>
    (match s with
     | .varDeclInit p _ => patNames p
     | .varDeclBare p => patNames p
     | .funcDecl n _ _ => [n]
     | _ => []) ++ collectVars t

/-- Is the expression the identifier with the given name. -/
def isIdent (e : JSExpr) (nm : String) : Bool :=
  match e with
  | .ident m => m == nm
  | _ => false

/-- The statically known text of a member property: the name of a
non-computed identifier property or the value of a string-literal index
(babel's matchesPattern accepts both). -/
def propText : JSProp → Option String
  | .static n => some n
  | .strIdx s => some s
  | .comp _ => none

/-- t.matchesPattern e "a.b": e is a member access of identifier a with
statically known property b. -/
def matchesPat2 (e : JSExpr) (a b : String) : Bool :=
  match e with
  | .member o p => isIdent o a && propText p == some b
  | _ => false

/-- t.matchesPattern e "a.b.c". -/
def matchesPat3 (e : JSExpr) (a b c : String) : Bool :=
  match e with
  | .member (.member o p) q => isIdent o a && propText p == some b && propText q == some c
  | _ => false

/-!
## Pre-scan (Program.enter sub-traversal, hoist.js lines 113-240)

The walk threads the parent context a handler needs (babel exposes
path.parent): whether the visited node is the object of a member
expression (and whether that member is computed / has a statically known
property), the argument of a typeof, or the left-hand side of an
assignment.
-/

/-- Parent context of a visited expression node. -/
inductive ParentCtx where
  | memberObj (computed : Bool) (staticProp : Bool)
  | typeofArg
  | assignLeft
  | other
deriving DecidableEq

/-- Parent context given to the object of a member expression with the
given property. -/
def propCtx : JSProp → ParentCtx
  | .static _ => .memberObj false true
  | .strIdx _ => .memberObj true true
  | .comp _ => .memberObj true false

/-- The source condition on the parent of a free module reference that
forces wrapping (hoist.js line 159-160):
(not a member-expression parent, or a computed one) and not typeof. -/
def moduleWrapCond : ParentCtx → Bool
  | .memberObj c _ => c
  | .typeofArg => false
  | _ => true

/-- The claim C1 wording of the same condition: the parent is neither
typeof nor a static member access (dot access or string-literal index). -/
def claimWrapCond : ParentCtx → Bool
  | .memberObj _ sp => !sp
  | .typeofArg => false
  | _ => true

/-- The "safe context" test of the exports bail-out analysis (hoist.js
lines 175-180 and 214-219): left-hand side of an assignment, or a member
parent with a statically known property. (The third disjunct,
scope.getData on shouldWrap, is undefined on a first traversal and is
omitted.) -/
def exportsSafeCtx : ParentCtx → Bool
  | .assignLeft => true
  | .memberObj _ sp => sp
  | _ => false

/-- Mutable state of the pre-scan: the asset meta flags it sets, the
local shouldWrap accumulator, the path.stop flag, and the number of
self-dependencies added by the bail-out branches. -/
structure PreState where
  isES6 : Bool
  isCJS : Bool
  shouldWrap : Bool
  stopped : Bool
  bailedOut : Bool
  selfDeps : Nat
deriving DecidableEq

/-- Initial pre-scan state. -/
def preScanInit : PreState := ⟨false, false, false, false, false, 0⟩

/-- The replacement of a triggering top-level return statement
(hoist.js lines 141-148): return module.exports. -/
def retModuleExports : JSStmt :=
  .ret (.member (.ident "module") (.static "exports"))


/-- State update of the ReferencedIdentifier pre-scan handler (hoist.js
lines 153-199) on an identifier named n in parent context ctx: the
free-module wrap trigger, the free-exports CommonJS flag, and the exports
bail-out. The stop flag is set together with shouldWrap. -/
def preScanIdentState (env : List String) (ctx : ParentCtx) (s : PreState)
    (n : String) : PreState :=
  if n == "module" && !env.contains "module" && moduleWrapCond ctx then
    { s with isCJS := true, shouldWrap := true, stopped := true }
  else if n == "exports" && !env.contains "exports" then
    if !exportsSafeCtx ctx then
      { s with isCJS := true, bailedOut := true, selfDeps := s.selfDeps + 1 }
    else { s with isCJS := true }
  else s

/-- State update of the MemberExpression pre-scan handler (hoist.js lines
202-239) on a member expression with the given object and property:
module.exports accesses set isCommonJS and, outside safe contexts, the
resolve-exports bail-out. -/
def preScanMemberState (env : List String) (ctx : ParentCtx) (s : PreState)
    (obj : JSExpr) (prop : JSProp) : PreState :=
  if isIdent obj "module" && propText prop == some "exports" && !env.contains "module" then
    if !exportsSafeCtx ctx then
      { s with isCJS := true, bailedOut := true, selfDeps := s.selfDeps + 1 }
    else { s with isCJS := true }
  else s

/-- State update of a triggering node that calls path.stop (the eval
call, the free module reference, the top-level return). -/
def preScanStopState (s : PreState) : PreState :=
  { s with isCJS := true, shouldWrap := true, stopped := true }

mutual
/-- Pre-scan of one expression (handlers CallExpression,
ReferencedIdentifier, MemberExpression of hoist.js lines 121-239). env is
the list of names with a local binding in scope, inFn whether a function
encloses the node, ctx the parent context. Once a handler has called
path.stop, the walk returns its input untouched. -/
def preScanExpr (env : List String) (inFn : Bool) (ctx : ParentCtx) (s : PreState) :
    JSExpr → PreState × JSExpr
  | .ident n =>
    if s.stopped then (s, .ident n)
    else (preScanIdentState env ctx s n, .ident n)
  | .num k => (s, .num k)
  | .str t => (s, .str t)
  | .boolLit b => (s, .boolLit b)
  | .thisE => (s, .thisE)
  | .objLit fs =>
    if s.stopped then (s, .objLit fs)
    else
      let r := preScanFieldList env inFn s fs
      (r.1, .objLit r.2)
  | .member obj prop =>
    if s.stopped then (s, .member obj prop)
    else
      let r := preScanExpr env inFn (propCtx prop) (preScanMemberState env ctx s obj prop) obj
      let r2 := preScanProp env inFn r.1 prop
      (r2.1, .member r.2 r2.2)
  | .typeofE a =>
    if s.stopped then (s, .typeofE a)
    else
      let r := preScanExpr env inFn .typeofArg s a
      (r.1, .typeofE r.2)
  | .assign l r =>
    if s.stopped then (s, .assign l r)
    else
      let r1 := preScanExpr env inFn .assignLeft s l
      let r2 := preScanExpr env inFn .other r1.1 r
      (r2.1, .assign r1.2 r2.2)
  | .call c args =>
    if s.stopped then (s, .call c args)
    else if isIdent c "eval" && !env.contains "eval" then
      (preScanStopState s, .call c args)
    else
      let r1 := preScanExpr env inFn .other s c
      let r2 := preScanExprList env inFn r1.1 args
      (r2.1, .call r1.2 r2.2)
  | .awaitE a =>
    if s.stopped then (s, .awaitE a)
    else
      let r := preScanExpr env inFn .other s a
      (r.1, .awaitE r.2)
  | .funcExpr ps b =>
    if s.stopped then (s, .funcExpr ps b)
    else
      let r := preScanStmtList (ps ++ collectVars b ++ env) true s b
      (r.1, .funcExpr ps r.2)
  | .arrowFunc ps b =>
    if s.stopped then (s, .arrowFunc ps b)
    else
      let r := preScanStmtList (ps ++ collectVars b ++ env) true s b
      (r.1, .arrowFunc ps r.2)

/-- Pre-scan of a member property: a computed property is a visited
child expression, a static property is not. -/
def preScanProp (env : List String) (inFn : Bool) (s : PreState) :
    JSProp → PreState × JSProp
  | .static n => (s, .static n)
  | .strIdx t => (s, .strIdx t)
  | .comp pe =>
    let r := preScanExpr env inFn .other s pe
    (r.1, .comp r.2)

/-- Pre-scan of a list of call arguments. -/
def preScanExprList (env : List String) (inFn : Bool) (s : PreState) :
    JSExprList → PreState × JSExprList
  | .nil => (s, .nil)
  | .cons h t =>
    if s.stopped then (s, .cons h t)
    else
      let r1 := preScanExpr env inFn .other s h
      let r2 := preScanExprList env inFn r1.1 t
      (r2.1, .cons r1.2 r2.2)

/-- Pre-scan of the fields of an object literal (keys are not referenced
identifiers; only values are visited). -/
def preScanFieldList (env : List String) (inFn : Bool) (s : PreState) :
    JSFieldList → PreState × JSFieldList
  | .nil => (s, .nil)
  | .cons k v t =>
    if s.stopped then (s, .cons k v t)
    else
      let r1 := preScanExpr env inFn .other s v
      let r2 := preScanFieldList env inFn r1.1 t
      (r2.1, .cons k r1.2 r2.2)

/-- Pre-scan of one statement (handlers ImportDeclaration and
ReturnStatement of hoist.js lines 115-151, plus recursion). -/
def preScanStmt (env : List String) (inFn : Bool) (s : PreState) :
    JSStmt → PreState × JSStmt
  | .exprStmt e =>
    if s.stopped then (s, .exprStmt e)
    else
      let r := preScanExpr env inFn .other s e
      (r.1, .exprStmt r.2)
  | .varDeclInit p i =>
    if s.stopped then (s, .varDeclInit p i)
    else
      let r := preScanExpr env inFn .other s i
      (r.1, .varDeclInit p r.2)
  | .varDeclBare p => (s, .varDeclBare p)
  | .ret a =>
    if s.stopped then (s, .ret a)
    else if !inFn then (preScanStopState s, retModuleExports)
    else
      let r := preScanExpr env inFn .other s a
      (r.1, .ret r.2)
  | .retVoid =>
    if s.stopped then (s, .retVoid)
    else if !inFn then (preScanStopState s, retModuleExports)
    else (s, .retVoid)
  | .funcDecl n ps b =>
    if s.stopped then (s, .funcDecl n ps b)
    else
      let r := preScanStmtList (n :: ps ++ collectVars b ++ env) true s b
      (r.1, .funcDecl n ps r.2)
  | .importDecl src =>
    if s.stopped then (s, .importDecl src)
    else ({ s with isES6 := true }, .importDecl src)

/-- Pre-scan of a statement list; stops (leaving the remaining statements
untouched) once a handler called path.stop. -/
def preScanStmtList (env : List String) (inFn : Bool) (s : PreState) :
    JSStmtList → PreState × JSStmtList
  | .nil => (s, .nil)
  | .cons h t =>
    if s.stopped then (s, .cons h t)
    else
      let r1 := preScanStmt env inFn s h
      let r2 := preScanStmtList env inFn r1.1 t
      (r2.1, .cons r1.2 r2.2)
end

/-- The whole pre-scan of a program body (hoist.js lines 113-240), with
the program-level bindings as initial environment (scope.crawl on line
111 precedes the walk). -/
def preScanProgram (body : JSStmtList) : PreState × JSStmtList :=
  preScanStmtList (collectVars body) false preScanInit body

mutual
/-- Wrap-trigger predicate on an expression, parameterized by the parent
condition on free module references. With moduleWrapCond it restates the
set of nodes at which the pre-scan sets shouldWrap: a free module
reference whose parent satisfies the condition, or an eval call with no
local eval binding (top-level returns are on statements). -/
def wrapTrigExpr (cond : ParentCtx → Bool) (env : List String) (inFn : Bool)
    (ctx : ParentCtx) : JSExpr → Bool
  | .ident n => n == "module" && !env.contains "module" && cond ctx
  | .num _ => false
  | .str _ => false
  | .boolLit _ => false
  | .thisE => false
  | .objLit fs => wrapTrigFieldList cond env inFn fs
  | .member obj prop =>
    wrapTrigExpr cond env inFn (propCtx prop) obj || wrapTrigProp cond env inFn prop
  | .typeofE a => wrapTrigExpr cond env inFn .typeofArg a
  | .assign l r =>
    wrapTrigExpr cond env inFn .assignLeft l || wrapTrigExpr cond env inFn .other r
  | .call c args =>
    (isIdent c "eval" && !env.contains "eval")
      || wrapTrigExpr cond env inFn .other c || wrapTrigExprList cond env inFn args
  | .awaitE a => wrapTrigExpr cond env inFn .other a
  | .funcExpr ps b => wrapTrigStmtList cond (ps ++ collectVars b ++ env) true b
  | .arrowFunc ps b => wrapTrigStmtList cond (ps ++ collectVars b ++ env) true b

/-- Wrap-trigger predicate on a member property. -/
def wrapTrigProp (cond : ParentCtx → Bool) (env : List String) (inFn : Bool) :
    JSProp → Bool
  | .static _ => false
  | .strIdx _ => false
  | .comp pe => wrapTrigExpr cond env inFn .other pe

/-- Wrap-trigger predicate on argument lists. -/
def wrapTrigExprList (cond : ParentCtx → Bool) (env : List String) (inFn : Bool) :
    JSExprList → Bool
  | .nil => false
  | .cons h t => wrapTrigExpr cond env inFn .other h || wrapTrigExprList cond env inFn t

/-- Wrap-trigger predicate on object-literal fields. -/
def wrapTrigFieldList (cond : ParentCtx → Bool) (env : List String) (inFn : Bool) :
    JSFieldList → Bool
  | .nil => false
  | .cons _ v t => wrapTrigExpr cond env inFn .other v || wrapTrigFieldList cond env inFn t

/-- Wrap-trigger predicate on a statement: a return statement with no
enclosing function, or a trigger inside its expressions. -/
def wrapTrigStmt (cond : ParentCtx → Bool) (env : List String) (inFn : Bool) :
    JSStmt → Bool
  | .exprStmt e => wrapTrigExpr cond env inFn .other e
  | .varDeclInit _ i => wrapTrigExpr cond env inFn .other i
  | .varDeclBare _ => false
  | .ret a => if !inFn then true else wrapTrigExpr cond env inFn .other a
  | .retVoid => !inFn
  | .funcDecl n ps b => wrapTrigStmtList cond (n :: ps ++ collectVars b ++ env) true b
  | .importDecl _ => false

/-- Wrap-trigger predicate on a statement list. -/
def wrapTrigStmtList (cond : ParentCtx → Bool) (env : List String) (inFn : Bool) :
    JSStmtList → Bool
  | .nil => false
  | .cons h t => wrapTrigStmt cond env inFn h || wrapTrigStmtList cond env inFn t
end

/-- Wrap-trigger predicate on a whole program. -/
def wrapTrigProgram (cond : ParentCtx → Bool) (body : JSStmtList) : Bool :=
  wrapTrigStmtList cond (collectVars body) false body
/-!
## Characterization of the pre-scan shouldWrap flag
-/

/-- The ident-handler state update has the trigger condition as its
effect on shouldWrap and stopped. -/
theorem preScanIdentState_char (env : List String) (ctx : ParentCtx)
    (s : PreState) (n : String) :
    (preScanIdentState env ctx s n).shouldWrap
      = (s.shouldWrap || (n == "module" && !env.contains "module" && moduleWrapCond ctx))
    ∧ (preScanIdentState env ctx s n).stopped
      = (s.stopped || (n == "module" && !env.contains "module" && moduleWrapCond ctx)) := by
  unfold preScanIdentState
  split
  next h => rw [h]; simp
  next h =>
    rw [Bool.eq_false_iff.mpr h]
    split
    · split <;> simp
    · simp

/-- The member-handler state update leaves shouldWrap and stopped
unchanged. -/
theorem preScanMemberState_flags (env : List String) (ctx : ParentCtx)
    (s : PreState) (obj : JSExpr) (prop : JSProp) :
    (preScanMemberState env ctx s obj prop).shouldWrap = s.shouldWrap
    ∧ (preScanMemberState env ctx s obj prop).stopped = s.stopped := by
  unfold preScanMemberState
  split
  · split <;> simp
  · simp

/-- Bool bookkeeping for sequencing the walks of two children. -/
theorem seqChar {s s1 s2 : PreState} {t1 t2 : Bool}
    (h1w : s1.shouldWrap = (s.shouldWrap || (!s.stopped && t1)))
    (h1s : s1.stopped = (s.stopped || (!s.stopped && t1)))
    (h2w : s2.shouldWrap = (s1.shouldWrap || (!s1.stopped && t2)))
    (h2s : s2.stopped = (s1.stopped || (!s1.stopped && t2))) :
    s2.shouldWrap = (s.shouldWrap || (!s.stopped && (t1 || t2)))
      ∧ s2.stopped = (s.stopped || (!s.stopped && (t1 || t2))) := by
  rw [h2w, h2s, h1w, h1s]
  cases hs : s.stopped <;> cases hw : s.shouldWrap <;> cases t1 <;> cases t2 <;> simp

mutual
theorem preScanExpr_char (env : List String) (inFn : Bool) (ctx : ParentCtx)
    (s : PreState) (e : JSExpr) :
    (preScanExpr env inFn ctx s e).1.shouldWrap
      = (s.shouldWrap || (!s.stopped && wrapTrigExpr moduleWrapCond env inFn ctx e))
    ∧ (preScanExpr env inFn ctx s e).1.stopped
      = (s.stopped || (!s.stopped && wrapTrigExpr moduleWrapCond env inFn ctx e)) := by
  cases e with
  | ident n =>
    rw [preScanExpr, wrapTrigExpr]
    by_cases hs : s.stopped = true
    · simp [hs]
    · rw [if_neg hs]
      have h := preScanIdentState_char env ctx s n
      rw [h.1, h.2]
      rw [Bool.not_eq_true] at hs
      simp [hs]
  | num k => simp [preScanExpr, wrapTrigExpr]
  | str t => simp [preScanExpr, wrapTrigExpr]
  | boolLit b => simp [preScanExpr, wrapTrigExpr]
  | thisE => simp [preScanExpr, wrapTrigExpr]
  | objLit fs =>
    rw [preScanExpr, wrapTrigExpr]
    by_cases hs : s.stopped = true
    · simp [hs]
    · rw [if_neg hs]
      have ih := preScanFieldList_char env inFn s fs
      exact ⟨ih.1, ih.2⟩
  | member obj prop =>
    rw [preScanExpr, wrapTrigExpr]
    by_cases hs : s.stopped = true
    · simp [hs]
    · rw [if_neg hs]
      have hm := preScanMemberState_flags env ctx s obj prop
      have ih1 := preScanExpr_char env inFn (propCtx prop)
        (preScanMemberState env ctx s obj prop) obj
      rw [hm.1, hm.2] at ih1
      have ih2 := preScanProp_char env inFn
        (preScanExpr env inFn (propCtx prop) (preScanMemberState env ctx s obj prop) obj).1 prop
      exact seqChar ih1.1 ih1.2 ih2.1 ih2.2
  | typeofE a =>
    rw [preScanExpr, wrapTrigExpr]
    by_cases hs : s.stopped = true
    · simp [hs]
    · rw [if_neg hs]
      exact preScanExpr_char env inFn .typeofArg s a
  | assign l r =>
    rw [preScanExpr, wrapTrigExpr]
    by_cases hs : s.stopped = true
    · simp [hs]
    · rw [if_neg hs]
      have ih1 := preScanExpr_char env inFn .assignLeft s l
      have ih2 := preScanExpr_char env inFn .other
        (preScanExpr env inFn .assignLeft s l).1 r
      exact seqChar ih1.1 ih1.2 ih2.1 ih2.2
  | call c args =>
    rw [preScanExpr, wrapTrigExpr]
    by_cases hs : s.stopped = true
    · simp [hs]
    · rw [if_neg hs]
      by_cases hev : (isIdent c "eval" && !env.contains "eval") = true
      · rw [if_pos hev, hev]
        rw [Bool.not_eq_true] at hs
        simp [hs, preScanStopState]
      · rw [if_neg hev]
        rw [Bool.eq_false_iff.mpr hev]
        have ih1 := preScanExpr_char env inFn .other s c
        have ih2 := preScanExprList_char env inFn
          (preScanExpr env inFn .other s c).1 args
        have h := seqChar ih1.1 ih1.2 ih2.1 ih2.2
        simpa using h
  | awaitE a =>
    rw [preScanExpr, wrapTrigExpr]
    by_cases hs : s.stopped = true
    · simp [hs]
    · rw [if_neg hs]
      exact preScanExpr_char env inFn .other s a
  | funcExpr ps b =>
    rw [preScanExpr, wrapTrigExpr]
    by_cases hs : s.stopped = true
    · simp [hs]
    · rw [if_neg hs]
      exact preScanStmtList_char (ps ++ collectVars b ++ env) true s b
  | arrowFunc ps b =>
    rw [preScanExpr, wrapTrigExpr]
    by_cases hs : s.stopped = true
    · simp [hs]
    · rw [if_neg hs]
      exact preScanStmtList_char (ps ++ collectVars b ++ env) true s b

theorem preScanProp_char (env : List String) (inFn : Bool)
    (s : PreState) (p : JSProp) :
    (preScanProp env inFn s p).1.shouldWrap
      = (s.shouldWrap || (!s.stopped && wrapTrigProp moduleWrapCond env inFn p))
    ∧ (preScanProp env inFn s p).1.stopped
      = (s.stopped || (!s.stopped && wrapTrigProp moduleWrapCond env inFn p)) := by
  cases p with
  | static n => simp [preScanProp, wrapTrigProp]
  | strIdx t => simp [preScanProp, wrapTrigProp]
  | comp pe =>
    rw [preScanProp, wrapTrigProp]
    exact preScanExpr_char env inFn .other s pe

theorem preScanExprList_char (env : List String) (inFn : Bool)
    (s : PreState) (l : JSExprList) :
    (preScanExprList env inFn s l).1.shouldWrap
      = (s.shouldWrap || (!s.stopped && wrapTrigExprList moduleWrapCond env inFn l))
    ∧ (preScanExprList env inFn s l).1.stopped
      = (s.stopped || (!s.stopped && wrapTrigExprList moduleWrapCond env inFn l)) := by
  cases l with
  | nil => simp [preScanExprList, wrapTrigExprList]
  | cons h t =>
    rw [preScanExprList, wrapTrigExprList]
    by_cases hs : s.stopped = true
    · simp [hs]
    · rw [if_neg hs]
      have ih1 := preScanExpr_char env inFn .other s h
      have ih2 := preScanExprList_char env inFn
        (preScanExpr env inFn .other s h).1 t
      exact seqChar ih1.1 ih1.2 ih2.1 ih2.2

theorem preScanFieldList_char (env : List String) (inFn : Bool)
    (s : PreState) (l : JSFieldList) :
    (preScanFieldList env inFn s l).1.shouldWrap
      = (s.shouldWrap || (!s.stopped && wrapTrigFieldList moduleWrapCond env inFn l))
    ∧ (preScanFieldList env inFn s l).1.stopped
      = (s.stopped || (!s.stopped && wrapTrigFieldList moduleWrapCond env inFn l)) := by
  cases l with
  | nil => simp [preScanFieldList, wrapTrigFieldList]
  | cons k v t =>
    rw [preScanFieldList, wrapTrigFieldList]
    by_cases hs : s.stopped = true
    · simp [hs]
    · rw [if_neg hs]
      have ih1 := preScanExpr_char env inFn .other s v
      have ih2 := preScanFieldList_char env inFn
        (preScanExpr env inFn .other s v).1 t
      exact seqChar ih1.1 ih1.2 ih2.1 ih2.2

theorem preScanStmt_char (env : List String) (inFn : Bool)
    (s : PreState) (st : JSStmt) :
    (preScanStmt env inFn s st).1.shouldWrap
      = (s.shouldWrap || (!s.stopped && wrapTrigStmt moduleWrapCond env inFn st))
    ∧ (preScanStmt env inFn s st).1.stopped
      = (s.stopped || (!s.stopped && wrapTrigStmt moduleWrapCond env inFn st)) := by
  cases st with
  | exprStmt e =>
    rw [preScanStmt, wrapTrigStmt]
    by_cases hs : s.stopped = true
    · simp [hs]
    · rw [if_neg hs]
      exact preScanExpr_char env inFn .other s e
  | varDeclInit p i =>
    rw [preScanStmt, wrapTrigStmt]
    by_cases hs : s.stopped = true
    · simp [hs]
    · rw [if_neg hs]
      exact preScanExpr_char env inFn .other s i
  | varDeclBare p => simp [preScanStmt, wrapTrigStmt]
  | ret a =>
    rw [preScanStmt, wrapTrigStmt]
    by_cases hs : s.stopped = true
    · simp [hs]
    · rw [if_neg hs]
      cases hf : inFn with
      | false =>
        rw [Bool.not_eq_true] at hs
        simp [hs, preScanStopState]
      | true =>
        have ih := preScanExpr_char env true .other s a
        simpa using ih
  | retVoid =>
    rw [preScanStmt, wrapTrigStmt]
    by_cases hs : s.stopped = true
    · simp [hs]
    · rw [if_neg hs]
      cases hf : inFn with
      | false =>
        rw [Bool.not_eq_true] at hs
        simp [hs, preScanStopState]
      | true => simp
  | funcDecl n ps b =>
    rw [preScanStmt, wrapTrigStmt]
    by_cases hs : s.stopped = true
    · simp [hs]
    · rw [if_neg hs]
      exact preScanStmtList_char (n :: ps ++ collectVars b ++ env) true s b
  | importDecl src =>
    rw [preScanStmt, wrapTrigStmt]
    by_cases hs : s.stopped = true
    · simp [hs]
    · rw [if_neg hs]
      simp

theorem preScanStmtList_char (env : List String) (inFn : Bool)
    (s : PreState) (l : JSStmtList) :
    (preScanStmtList env inFn s l).1.shouldWrap
      = (s.shouldWrap || (!s.stopped && wrapTrigStmtList moduleWrapCond env inFn l))
    ∧ (preScanStmtList env inFn s l).1.stopped
      = (s.stopped || (!s.stopped && wrapTrigStmtList moduleWrapCond env inFn l)) := by
  cases l with
  | nil => simp [preScanStmtList, wrapTrigStmtList]
  | cons h t =>
    rw [preScanStmtList, wrapTrigStmtList]
    by_cases hs : s.stopped = true
    · simp [hs]
    · rw [if_neg hs]
      have ih1 := preScanStmt_char env inFn s h
      have ih2 := preScanStmtList_char env inFn
        (preScanStmt env inFn s h).1 t
      exact seqChar ih1.1 ih1.2 ih2.1 ih2.2
end

/-- Once stopped, the pre-scan leaves a statement list untouched. -/
theorem preScanStmtList_frozen (env : List String) (inFn : Bool) (s : PreState)
    (l : JSStmtList) (h : s.stopped = true) :
    preScanStmtList env inFn s l = (s, l) := by
  cases l with
  | nil => rw [preScanStmtList]
  | cons a t => rw [preScanStmtList, if_pos h]

/-- The pre-scan of a concatenation is the pre-scan of the first part
followed by the pre-scan of the second from the resulting state. -/
theorem preScanStmtList_append (env : List String) (inFn : Bool) (s : PreState)
    (l1 l2 : JSStmtList) :
    preScanStmtList env inFn s (l1.append l2)
      = ((preScanStmtList env inFn (preScanStmtList env inFn s l1).1 l2).1,
         JSStmtList.append (preScanStmtList env inFn s l1).2
           (preScanStmtList env inFn (preScanStmtList env inFn s l1).1 l2).2) := by
  cases l1 with
  | nil => simp [preScanStmtList, JSStmtList.append]
  | cons a t =>
    by_cases hs : s.stopped = true
    · simp [JSStmtList.append, hs, preScanStmtList_frozen]
    · have ih := preScanStmtList_append env inFn (preScanStmt env inFn s a).1 t l2
      simp only [JSStmtList.append]
      rw [preScanStmtList, if_neg hs]
      conv_rhs => rw [preScanStmtList, if_neg hs]
      simp only [ih, JSStmtList.append]

/-!
## Claim C1
-/

/-- The program consisting of the single statement
module["id"]; - a free module reference whose parent is the computed
string-literal member access. -/
def c1Program : JSStmtList :=
  .cons (.exprStmt (.member (.ident "module") (.strIdx "id"))) .nil

/-- C1, counterexample. The claim states that the pre-scan sets
shouldWrap exactly at a free module reference whose parent is neither
typeof module nor a static member access with the static accesses
including the string-literal index form module["id"] (claimWrapCond).
On the one-statement program module["id"]; the pre-scan does set
shouldWrap (the source condition at hoist.js line 159 is
parent-not-a-member-expression OR parent.computed, and a string-literal
index is computed), while the claim predicate does not trigger, so the
claimed equivalence is false at this input. -/
theorem c1_counterexample :
    (preScanProgram c1Program).1.shouldWrap = true
      ∧ wrapTrigProgram claimWrapCond c1Program = false := by
  exact ⟨rfl, rfl⟩

/-- C1 (amended): for every input tree, the pre-scan sets shouldWrap to
true exactly when the tree has a free reference to module whose parent
is neither typeof module nor a non-computed static member access
module.id (a computed string-literal access module["id"] does trigger
wrapping), or a return statement with no enclosing function, or a call
to eval with no local eval binding; otherwise shouldWrap remains
false. -/
theorem c1_preScan_shouldWrap_iff_trigger (body : JSStmtList) :
    (preScanProgram body).1.shouldWrap = wrapTrigProgram moduleWrapCond body := by
  have h := (preScanStmtList_char (collectVars body) false preScanInit body).1
  rw [preScanProgram, wrapTrigProgram]
  rw [h]
  rfl

/-!
## Claim C10
-/

/-- C10: the pre-scan walk stops at the first node that sets shouldWrap.
For a program pre ++ (return a) :: post in which pre contains no trigger,
the walk processes pre, replaces the first top-level return by
return module.exports, sets isCommonJS, shouldWrap and the stop flag
(preScanStopState), and returns every following statement - including
any later top-level return - exactly as it was, with no further state
update. -/
theorem c10_preScan_stops_at_first_trigger (pre post : JSStmtList) (a : JSExpr)
    (h : wrapTrigStmtList moduleWrapCond
        (collectVars (pre.append (.cons (.ret a) post))) false pre = false) :
    preScanProgram (pre.append (.cons (.ret a) post))
      = (preScanStopState
          (preScanStmtList (collectVars (pre.append (.cons (.ret a) post)))
            false preScanInit pre).1,
         JSStmtList.append
           (preScanStmtList (collectVars (pre.append (.cons (.ret a) post)))
             false preScanInit pre).2
           (.cons retModuleExports post)) := by
  rw [preScanProgram, preScanStmtList_append]
  have hst : (preScanStmtList (collectVars (pre.append (.cons (.ret a) post)))
      false preScanInit pre).1.stopped = false := by
    have hc := (preScanStmtList_char (collectVars (pre.append (.cons (.ret a) post)))
      false preScanInit pre).2
    rw [hc, h]
    rfl
  rw [preScanStmtList, if_neg (by rw [hst]; exact Bool.false_ne_true)]
  rw [preScanStmt, if_neg (by rw [hst]; exact Bool.false_ne_true)]
  simp only [Bool.not_false, if_pos]
  rw [preScanStmtList_frozen _ _ _ _ rfl]

/-- C10, witness: the program return 1; return 2; - the first return is
replaced by return module.exports, the second is kept with its original
argument, and the final pre-scan state is the stop state. -/
theorem c10_witness :
    wrapTrigStmtList moduleWrapCond
        (collectVars (JSStmtList.append .nil
          (.cons (.ret (.num 1)) (.cons (.ret (.num 2)) .nil)))) false .nil = false
    ∧ preScanProgram (JSStmtList.append .nil
          (.cons (.ret (.num 1)) (.cons (.ret (.num 2)) .nil)))
        = (preScanStopState
            (preScanStmtList (collectVars (JSStmtList.append .nil
              (.cons (.ret (.num 1)) (.cons (.ret (.num 2)) .nil))))
              false preScanInit .nil).1,
           JSStmtList.append
             (preScanStmtList (collectVars (JSStmtList.append .nil
               (.cons (.ret (.num 1)) (.cons (.ret (.num 2)) .nil))))
               false preScanInit .nil).2
             (.cons retModuleExports (.cons (.ret (.num 2)) .nil))) :=
  ⟨rfl, c10_preScan_stops_at_first_trigger .nil (.cons (.ret (.num 2)) .nil) (.num 1) rfl⟩

/-!
## Asset, dependency and transform state

The body walk mutates the asset symbol table, meta flags, the dependency
records, the program bindings (babel registerDeclaration / scope.push),
the list of declarations pushed to the top of the program, and the list
of hoisted require statements. The data that is fixed during the body
walk - the asset configuration, the shouldWrap scope data (written once
at Program.enter, hoist.js line 248), the ES-module flag and the
bail-out flag - is a separate read-only configuration.
-/

/-- A symbol table: exported name to local name, insertion-ordered;
set replaces the entry in place (a JS Map). -/
def symSet : List (String × String) → String → String → List (String × String)
  | [], k, v => [(k, v)]
  | p :: t, k, v => if p.1 == k then (k, v) :: t else p :: symSet t k v

/-- Lookup in a symbol table. -/
def symLookup (tab : List (String × String)) (k : String) : Option String :=
  (tab.find? (fun p => p.1 == k)).map (fun p => p.2)

/-- Setting a key makes it present with the written value. -/
theorem symLookup_symSet_self (tab : List (String × String)) (k v : String) :
    symLookup (symSet tab k v) k = some v := by
  induction tab with
  | nil => simp [symSet, symLookup]
  | cons p t ih =>
    by_cases h : (p.1 == k) = true
    · simp [symSet, symLookup, h]
    · simp only [symSet, h, Bool.false_eq_true, if_false]
      simp only [symLookup, List.find?]
      rw [Bool.not_eq_true] at h
      rw [h]
      exact ih

/-- The immutable description of the asset under transform. -/
structure AssetCfg where
  id : String
  filePath : String
  envIsNode : Bool
deriving DecidableEq

/-- A declared dependency of the asset: its stable id, the original
module specifier, the async bit, the meta flags the transform writes,
and its symbol table (none until symbols.ensure()). -/
structure Dep where
  id : String
  moduleSpecifier : String
  isAsync : Bool
  metaShouldWrap : Bool
  metaIsCommonJS : Bool
  symbols : Option (List (String × String))
deriving DecidableEq

/-- Modelled from the spec: the naming scheme of section 4.2, implemented
by getName / getIdentifier / getExportIdentifier in
scope-hoisting/src/utils.js, which is not among the provided sources:
a dollar, the asset id, and the given parts, joined by dollars
(t.toIdentifier normalization is the identity on the identifier-shaped
ids used here). -/
def getName (assetId : String) (parts : List String) : String :=
  "$" ++ assetId ++ "$" ++ String.intercalate "$" parts

/-- Does s start with p (String.startsWith, stated over the character
lists so that it computes by kernel reduction). -/
def strHasPrefix (s p : String) : Bool :=
  p.data.isPrefixOf s.data

/-- basename(filePath): the part after the last slash. -/
def baseNameOf (s : String) : String :=
  String.mk (s.data.foldl (fun acc c => if c = '/' then [] else acc ++ [c]) [])

/-- The self-dependency added by the exports bail-out branches of the
pre-scan (hoist.js lines 185-197 and 224-236): specifier
"./" ++ basename(filePath), symbols mapping the namespace to the local
name @exports. -/
def selfDependency (a : AssetCfg) : Dep :=
  { id := "", moduleSpecifier := "./" ++ baseNameOf a.filePath,
    isAsync := false, metaShouldWrap := false, metaIsCommonJS := false,
    symbols := some [("*", "@exports")] }

/-- Read-only configuration of the body walk: the asset, the shouldWrap
and cjs-exports scope data written at Program.enter, the ES-module flag
(only the pre-scan sets it) and the resolve-exports bail-out flag. -/
structure WalkCfg where
  asset : AssetCfg
  shouldWrap : Bool
  isES6 : Bool
  bailedOut : Bool
deriving DecidableEq

/-- Mutable state of the body walk. -/
structure WState where
  symbols : List (String × String)
  metaIsCommonJS : Bool
  cjsExportsReassigned : Bool
  deps : List Dep
  progBindings : List String
  pushed : JSStmtList
  hoisted : JSStmtList
deriving DecidableEq

/-- Replace the first dependency with the given module specifier. -/
def updateDep : List Dep → String → (Dep → Dep) → List Dep
  | [], _, _ => []
  | d :: t, spec, f =>
    if d.moduleSpecifier == spec then f d :: t else d :: updateDep t spec f

/-!
## Body-walk handlers (hoist.js lines 309-672)
-/

/-- getExportsIdentifier (hoist.js lines 1030-1041): the literal name
exports inside a wrapped module, otherwise the asset exports name.
(The addGlobal bookkeeping has no observable effect in this model: the
program-exit globals check reads the tree.) -/
def getExportsIdentifier (cfg : WalkCfg) : String :=
  if cfg.shouldWrap then "exports" else getName cfg.asset.id ["exports"]

/-- getCJSExportsIdentifier (hoist.js lines 1043-1056): exports when
wrapped; the cjs_exports name (declared at program level on first use)
after exports has been reassigned; else the exports identifier. -/
def getCJSExportsIdentifier (cfg : WalkCfg) (st : WState) (locals : List String) :
    WState × String :=
  if cfg.shouldWrap then (st, "exports")
  else if st.cjsExportsReassigned then
    let nm := getName cfg.asset.id ["cjs_exports"]
    if (st.progBindings ++ locals).contains nm then (st, nm)
    else
      ({ st with
          pushed := st.pushed.append (.cons (.varDeclBare (.id nm)) .nil),
          progBindings := st.progBindings ++ [nm] }, nm)
  else (st, getExportsIdentifier cfg)

/-- ReferencedIdentifier body handler (hoist.js lines 349-362): a free
exports reference becomes the cjs-exports identifier when the module is
not wrapped; a free global reference becomes $parcel$global
(unconditionally). Returns the replacement, if any. -/
def referencedIdentifierVisit (cfg : WalkCfg) (st : WState) (locals : List String)
    (n : String) : WState × Option JSExpr :=
  if n == "exports" && !(st.progBindings ++ locals).contains "exports"
      && !cfg.shouldWrap then
    let r := getCJSExportsIdentifier cfg st locals
    ({ r.1 with metaIsCommonJS := true }, some (.ident r.2))
  else if n == "global" && !(st.progBindings ++ locals).contains "global" then
    (st, some (.ident "$parcel$global"))
  else (st, none)

/-- MemberExpression body handler (hoist.js lines 317-347): rewrites
free module.exports, module.id, module.hot, module.require (non-node)
and module.bundle[.root], unless module is locally bound or the module
is wrapped. -/
def memberExpressionVisit (cfg : WalkCfg) (st : WState) (locals : List String)
    (obj : JSExpr) (prop : JSProp) : WState × Option JSExpr :=
  let node := JSExpr.member obj prop
  if (st.progBindings ++ locals).contains "module" || cfg.shouldWrap then (st, none)
  else if matchesPat2 node "module" "exports" then
    let eid := getExportsIdentifier cfg
    let st1 := { st with symbols := symSet st.symbols "*" eid }
    let st2 :=
      if !(st1.progBindings ++ locals).contains eid then
        { st1 with
            pushed := st1.pushed.append
              (.cons (.varDeclInit (.id eid) (.objLit .nil)) .nil),
            progBindings := st1.progBindings ++ [eid] }
      else st1
    (st2, some (.ident eid))
  else if matchesPat2 node "module" "id" then (st, some (.str cfg.asset.id))
  else if matchesPat2 node "module" "hot" then (st, some (.ident "null"))
  else if matchesPat2 node "module" "require" && !cfg.asset.envIsNode then
    (st, some (.ident "null"))
  else if matchesPat3 node "module" "bundle" "root" || matchesPat2 node "module" "bundle" then
    (st, some (.ident "parcelRequire"))
  else (st, none)

/-- ThisExpression handler (hoist.js lines 364-385): at module top level
(no enclosing non-arrow function; the fragment has no classes), this
becomes undefined in an ES module and the exports identifier in a
CommonJS module; nothing happens in a wrapped module. -/
def thisExpressionVisit (cfg : WalkCfg) (st : WState) (inNonArrowFn : Bool) :
    WState × Option JSExpr :=
  if cfg.shouldWrap then (st, none)
  else if inNonArrowFn then (st, none)
  else if cfg.isES6 then (st, some (.ident "undefined"))
  else ({ st with metaIsCommonJS := true }, some (.ident (getExportsIdentifier cfg)))

/-- UnaryExpression handler (hoist.js lines 500-511): typeof module and
typeof require become the string literals "object" and "function" when
the name is unbound and the module is not wrapped. -/
def unaryExpressionVisit (cfg : WalkCfg) (st : WState) (locals : List String)
    (arg : JSExpr) : Option JSExpr :=
  match arg with
  | .ident n =>
    if n == "module" && !(st.progBindings ++ locals).contains n && !cfg.shouldWrap then
      some (.str "object")
    else if n == "require" && !(st.progBindings ++ locals).contains n
        && !cfg.shouldWrap then
      some (.str "function")
    else none
  | _ => none

/-- Result of the AssignmentExpression handler: no rewrite; only the
left side replaced (exports = rhs, hoist.js lines 422-432); or the
CommonJS-export rewrite (lines 436-497) with the new left and right, the
export identifier, and whether the inserted statement is the
first-assignment var declaration (true) or an assignment to an existing
export binding (false). -/
inductive AssignAction where
  | keep
  | leftOnly (l2 : JSExpr)
  | cjsExport (l2 r2 : JSExpr) (exportId : String) (asVarDecl : Bool)
deriving DecidableEq

/-- AssignmentExpression handler state updates and node decision
(hoist.js lines 387-498). The inserted statement is assembled by the
caller from the walked right-hand side. atProg is whether the assignment
sits in the program scope (path.scope === scope.getProgramParent()). -/
def assignmentEnter (cfg : WalkCfg) (st : WState) (locals : List String)
    (atProg : Bool) (l : JSExpr) : WState × AssignAction :=
  if cfg.shouldWrap then (st, .keep)
  else
    match l with
    | .ident n =>
      if n == "exports" && !(st.progBindings ++ locals).contains "exports" then
        let st1 := { st with cjsExportsReassigned := true }
        let r := getCJSExportsIdentifier cfg st1 locals
        ({ r.1 with metaIsCommonJS := true }, .leftOnly (.ident r.2))
      else (st, .keep)
    | .member lobj lprop =>
      if ((isIdent lobj "exports" && !(st.progBindings ++ locals).contains "exports")
            || (matchesPat2 lobj "module" "exports"
                  && !(st.progBindings ++ locals).contains "module"))
          && (propText lprop).isSome then
        let name := (propText lprop).getD ""
        let exportId := getName cfg.asset.id ["export", name]
        let eid := getExportsIdentifier cfg
        let l2 := JSExpr.member (.ident eid) lprop
        if !st.progBindings.contains exportId then
          let stS :=
            if name != "default" && name != "*" then
              { st with symbols := symSet st.symbols name exportId }
            else st
          if atProg then
            ({ stS with
                metaIsCommonJS := true,
                progBindings := stS.progBindings ++ [exportId] },
             .cjsExport l2 (.ident exportId) exportId true)
          else
            ({ stS with
                metaIsCommonJS := true,
                progBindings := stS.progBindings ++ [exportId],
                pushed := stS.pushed.append
                  (.cons (.varDeclBare (.id exportId)) .nil) },
             .cjsExport l2 (.ident exportId) exportId false)
        else
          ({ st with metaIsCommonJS := true },
           .cjsExport l2 (.ident exportId) exportId false)
      else (st, .keep)
    | _ => (st, .keep)

/-- CallExpression handler (hoist.js lines 513-672) for require(s),
import(s) (already rewritten to an async require(s) by the dependency
pass) and require.resolve(s) with a single string-literal argument and
no local require binding. ctxProps carries the object-pattern properties
when the call is the awaited initializer of a destructuring declarator
(the static import() analysis of lines 554-634 for the shapes in this
fragment); atTopStmt is whether the enclosing statement is a direct
child of the program, underFn whether a conditional, logical or function
parent exists (in this fragment: a function). -/
def callExpressionVisit (cfg : WalkCfg) (st : WState) (locals : List String)
    (atTopStmt underFn : Bool) (ctxProps : Option (List PatProp))
    (callee : JSExpr) (args : JSExprList) : WState × Option JSExpr :=
  match args with
  | .cons (.str s) .nil =>
    if (st.progBindings ++ locals).contains "require" then (st, none)
    else if isIdent callee "require" then
      match st.deps.find? (fun d => d.moduleSpecifier == s) with
      | none => (st, none)
      | some dep0 =>
        let st1 :=
          if !dep0.isAsync then { st with metaIsCommonJS := true } else st
        let memberAccesses : Option (List String) :=
          if dep0.isAsync then
            match ctxProps with
            | some ps =>
              if ps.all (fun p =>
                  match p with
                  | .prop (.id _) _ => true
                  | _ => false) then
                some (ps.filterMap (fun p =>
                  match p with
                  | .prop (.id k) _ => some k
                  | _ => none))
              else none
            | none => none
          else none
        let updF : Dep → Dep := fun d =>
          let d1 := if !atTopStmt || underFn then { d with metaShouldWrap := true } else d
          let tab := d1.symbols.getD []
          match memberAccesses with
          | some names =>
            { d1 with
                symbols := some (names.foldl
                  (fun t nm => symSet t nm (getName cfg.asset.id ["importAsync", d1.id, nm]))
                  tab) }
          | none =>
            { d1 with
                metaIsCommonJS := true,
                symbols := some (symSet tab "*" (getName cfg.asset.id ["require", s])) }
        let st2 := { st1 with deps := updateDep st1.deps s updF }
        (st2, some (.call (.ident "$parcel$require")
          (.cons (.str cfg.asset.id) (.cons (.str s) .nil))))
    else if matchesPat2 callee "require" "resolve" then
      (st, some (.call (.ident "$parcel$require$resolve")
        (.cons (.str cfg.asset.id) (.cons (.str s) .nil))))
    else (st, none)
  | _ => (st, none)

/-- ImportDeclaration handler (hoist.js lines 674-780) restricted to the
specifier-free imports of this fragment: ensure the dependency symbol
table, hoist a $parcel$require statement (addImport, lines 940-961), and
remove the declaration. -/
def importDeclarationVisit (cfg : WalkCfg) (st : WState) (src : String) : WState :=
  let st1 :=
    { st with deps := updateDep st.deps src (fun d => { d with symbols := some (d.symbols.getD []) }) }
  let req := JSStmt.exprStmt (.call (.ident "$parcel$require")
    (.cons (.str cfg.asset.id) (.cons (.str src) .nil)))
  { st1 with hoisted := st1.hoisted.append (.cons req .nil) }

/-!
## Renaming and free-reference search
-/

/-- Rename a binding inside a pattern. -/
def renamePat (o n : String) : JSPat → JSPat
  | .id m => .id (if m == o then n else m)
  | .objPat ps =>
    .objPat (ps.map (fun p =>
      match p with
      | .prop k v => .prop k (if v == o then n else v)
      | .rest m => .rest (if m == o then n else m)))

mutual
/-- Modelled from the spec: the renamer (scope-hoisting/src/renamer.js,
not among the provided sources; spec section 4.2: the rename must update
every reference across every scope). Renames the binding o to n in an
expression, stopping at functions that rebind o. -/
def renameExpr (o n : String) : JSExpr → JSExpr
  | .ident m => if m == o then .ident n else .ident m
  | .num k => .num k
  | .str t => .str t
  | .boolLit b => .boolLit b
  | .thisE => .thisE
  | .objLit fs => .objLit (renameFieldList o n fs)
  | .member obj p => .member (renameExpr o n obj) (renameProp o n p)
  | .typeofE a => .typeofE (renameExpr o n a)
  | .assign l r => .assign (renameExpr o n l) (renameExpr o n r)
  | .call c args => .call (renameExpr o n c) (renameExprList o n args)
  | .awaitE a => .awaitE (renameExpr o n a)
  | .funcExpr ps b =>
    if ps.contains o || (collectVars b).contains o then .funcExpr ps b
    else .funcExpr ps (renameStmtList o n b)
  | .arrowFunc ps b =>
    if ps.contains o || (collectVars b).contains o then .arrowFunc ps b
    else .arrowFunc ps (renameStmtList o n b)

/-- Rename inside a member property (only computed properties hold
references). -/
def renameProp (o n : String) : JSProp → JSProp
  | .static m => .static m
  | .strIdx t => .strIdx t
  | .comp e => .comp (renameExpr o n e)

/-- Rename inside an argument list. -/
def renameExprList (o n : String) : JSExprList → JSExprList
  | .nil => .nil
  | .cons h t => .cons (renameExpr o n h) (renameExprList o n t)

/-- Rename inside object-literal fields. -/
def renameFieldList (o n : String) : JSFieldList → JSFieldList
  | .nil => .nil
  | .cons k v t => .cons k (renameExpr o n v) (renameFieldList o n t)

/-- Rename a binding in a statement. -/
def renameStmt (o n : String) : JSStmt → JSStmt
  | .exprStmt e => .exprStmt (renameExpr o n e)
  | .varDeclInit p i => .varDeclInit (renamePat o n p) (renameExpr o n i)
  | .varDeclBare p => .varDeclBare (renamePat o n p)
  | .ret a => .ret (renameExpr o n a)
  | .retVoid => .retVoid
  | .funcDecl m ps b =>
    if ps.contains o || (collectVars b).contains o then
      .funcDecl (if m == o then n else m) ps b
    else .funcDecl (if m == o then n else m) ps (renameStmtList o n b)
  | .importDecl src => .importDecl src

/-- Rename a binding in a statement list. -/
def renameStmtList (o n : String) : JSStmtList → JSStmtList
  | .nil => .nil
  | .cons h t => .cons (renameStmt o n h) (renameStmtList o n t)
end

mutual
/-- Does the expression contain a reference to x not bound in env
(babel scope globals: used by the hasGlobal check at hoist.js line
288). -/
def freeRefExpr (env : List String) (x : String) : JSExpr → Bool
  | .ident m => m == x && !env.contains x
  | .num _ => false
  | .str _ => false
  | .boolLit _ => false
  | .thisE => false
  | .objLit fs => freeRefFieldList env x fs
  | .member obj p => freeRefExpr env x obj || freeRefProp env x p
  | .typeofE a => freeRefExpr env x a
  | .assign l r => freeRefExpr env x l || freeRefExpr env x r
  | .call c args => freeRefExpr env x c || freeRefExprList env x args
  | .awaitE a => freeRefExpr env x a
  | .funcExpr ps b => freeRefStmtList (ps ++ collectVars b ++ env) x b
  | .arrowFunc ps b => freeRefStmtList (ps ++ collectVars b ++ env) x b

/-- Free reference inside a member property. -/
def freeRefProp (env : List String) (x : String) : JSProp → Bool
  | .static _ => false
  | .strIdx _ => false
  | .comp e => freeRefExpr env x e

/-- Free reference inside an argument list. -/
def freeRefExprList (env : List String) (x : String) : JSExprList → Bool
  | .nil => false
  | .cons h t => freeRefExpr env x h || freeRefExprList env x t

/-- Free reference inside object-literal fields. -/
def freeRefFieldList (env : List String) (x : String) : JSFieldList → Bool
  | .nil => false
  | .cons _ v t => freeRefExpr env x v || freeRefFieldList env x t

/-- Free reference inside a statement. -/
def freeRefStmt (env : List String) (x : String) : JSStmt → Bool
  | .exprStmt e => freeRefExpr env x e
  | .varDeclInit _ i => freeRefExpr env x i
  | .varDeclBare _ => false
  | .ret a => freeRefExpr env x a
  | .retVoid => false
  | .funcDecl m ps b => freeRefStmtList (m :: ps ++ collectVars b ++ env) x b
  | .importDecl _ => false

/-- Free reference inside a statement list. -/
def freeRefStmtList (env : List String) (x : String) : JSStmtList → Bool
  | .nil => false
  | .cons h t => freeRefStmt env x h || freeRefStmtList env x t
end

mutual
/-- Does the expression contain a call whose callee is the identifier
x. -/
def callsToExpr (x : String) : JSExpr → Bool
  | .ident _ => false
  | .num _ => false
  | .str _ => false
  | .boolLit _ => false
  | .thisE => false
  | .objLit fs => callsToFieldList x fs
  | .member obj p => callsToExpr x obj || callsToProp x p
  | .typeofE a => callsToExpr x a
  | .assign l r => callsToExpr x l || callsToExpr x r
  | .call c args => isIdent c x || callsToExpr x c || callsToExprList x args
  | .awaitE a => callsToExpr x a
  | .funcExpr _ b => callsToStmtList x b
  | .arrowFunc _ b => callsToStmtList x b

/-- Calls inside a member property. -/
def callsToProp (x : String) : JSProp → Bool
  | .static _ => false
  | .strIdx _ => false
  | .comp e => callsToExpr x e

/-- Calls inside an argument list. -/
def callsToExprList (x : String) : JSExprList → Bool
  | .nil => false
  | .cons h t => callsToExpr x h || callsToExprList x t

/-- Calls inside object-literal fields. -/
def callsToFieldList (x : String) : JSFieldList → Bool
  | .nil => false
  | .cons _ v t => callsToExpr x v || callsToFieldList x t

/-- Calls inside a statement. -/
def callsToStmt (x : String) : JSStmt → Bool
  | .exprStmt e => callsToExpr x e
  | .varDeclInit _ i => callsToExpr x i
  | .varDeclBare _ => false
  | .ret a => callsToExpr x a
  | .retVoid => false
  | .funcDecl _ _ b => callsToStmtList x b
  | .importDecl _ => false

/-- Calls inside a statement list. -/
def callsToStmtList (x : String) : JSStmtList → Bool
  | .nil => false
  | .cons h t => callsToStmt x h || callsToStmtList x t
end

/-!
## The body walk (the per-node handlers of the visitor, run in babel
visit order: a node's own handler first, then its children; a node
replaced by a handler is requeued, and every handler is a no-op on each
of the produced replacement shapes, so replacements are returned
directly)
-/

mutual
/-- Walk of one expression. locals are the function-local bindings
(program bindings live in the state since handlers add to them), atProg
whether the position is at program level, inFn whether some function
encloses it, inNonArrowFn whether a non-arrow function encloses it.
Returns the statements inserted before the enclosing statement
(path.insertBefore) and the rewritten expression. -/
def walkExpr (cfg : WalkCfg) (st : WState) (locals : List String)
    (atProg inFn inNonArrowFn : Bool) : JSExpr → WState × JSStmtList × JSExpr
  | .ident n =>
    let r := referencedIdentifierVisit cfg st locals n
    (r.1, .nil, r.2.getD (.ident n))
  | .num k => (st, .nil, .num k)
  | .str t => (st, .nil, .str t)
  | .boolLit b => (st, .nil, .boolLit b)
  | .thisE =>
    let r := thisExpressionVisit cfg st inNonArrowFn
    (r.1, .nil, r.2.getD .thisE)
  | .objLit fs =>
    let r := walkFieldList cfg st locals atProg inFn inNonArrowFn fs
    (r.1, r.2.1, .objLit r.2.2)
  | .member obj prop =>
    match memberExpressionVisit cfg st locals obj prop with
    | (st1, some repl) => (st1, .nil, repl)
    | (st1, none) =>
      let ro := walkExpr cfg st1 locals atProg inFn inNonArrowFn obj
      let rp := walkProp cfg ro.1 locals atProg inFn inNonArrowFn prop
      (rp.1, (ro.2.1).append rp.2.1, .member ro.2.2 rp.2.2)
  | .typeofE a =>
    match unaryExpressionVisit cfg st locals a with
    | some repl => (st, .nil, repl)
    | none =>
      let r := walkExpr cfg st locals atProg inFn inNonArrowFn a
      (r.1, r.2.1, .typeofE r.2.2)
  | .assign l r =>
    match assignmentEnter cfg st locals atProg l with
    | (st1, .keep) =>
      let rl := walkExpr cfg st1 locals atProg inFn inNonArrowFn l
      let rr := walkExpr cfg rl.1 locals atProg inFn inNonArrowFn r
      (rr.1, (rl.2.1).append rr.2.1, .assign rl.2.2 rr.2.2)
    | (st1, .leftOnly l2) =>
      let rr := walkExpr cfg st1 locals atProg inFn inNonArrowFn r
      (rr.1, rr.2.1, .assign l2 rr.2.2)
    | (st1, .cjsExport l2 r2 exportId asVarDecl) =>
      -- the inserted statement takes the original (walked) right-hand
      -- side, hoist.js lines 473-493
      let rr := walkExpr cfg st1 locals atProg inFn inNonArrowFn r
      let insStmt :=
        if asVarDecl then JSStmt.varDeclInit (.id exportId) rr.2.2
        else JSStmt.exprStmt (.assign (.ident exportId) rr.2.2)
      (rr.1, (rr.2.1).append (.cons insStmt .nil), .assign l2 r2)
  | .call c args =>
    match callExpressionVisit cfg st locals atProg inFn none c args with
    | (st1, some repl) => (st1, .nil, repl)
    | (st1, none) =>
      let rc := walkExpr cfg st1 locals atProg inFn inNonArrowFn c
      let ra := walkExprList cfg rc.1 locals atProg inFn inNonArrowFn args
      (ra.1, (rc.2.1).append ra.2.1, .call rc.2.2 ra.2.2)
  | .awaitE a =>
    let r := walkExpr cfg st locals atProg inFn inNonArrowFn a
    (r.1, r.2.1, .awaitE r.2.2)
  | .funcExpr ps b =>
    let r := walkStmtList cfg st (ps ++ collectVars b ++ locals) false true true b
    (r.1, .nil, .funcExpr ps r.2)
  | .arrowFunc ps b =>
    let r := walkStmtList cfg st (ps ++ collectVars b ++ locals) false true inNonArrowFn b
    (r.1, .nil, .arrowFunc ps r.2)

/-- Walk of a member property. -/
def walkProp (cfg : WalkCfg) (st : WState) (locals : List String)
    (atProg inFn inNonArrowFn : Bool) : JSProp → WState × JSStmtList × JSProp
  | .static m => (st, .nil, .static m)
  | .strIdx t => (st, .nil, .strIdx t)
  | .comp e =>
    let r := walkExpr cfg st locals atProg inFn inNonArrowFn e
    (r.1, r.2.1, .comp r.2.2)

/-- Walk of an argument list. -/
def walkExprList (cfg : WalkCfg) (st : WState) (locals : List String)
    (atProg inFn inNonArrowFn : Bool) : JSExprList → WState × JSStmtList × JSExprList
  | .nil => (st, .nil, .nil)
  | .cons h t =>
    let r1 := walkExpr cfg st locals atProg inFn inNonArrowFn h
    let r2 := walkExprList cfg r1.1 locals atProg inFn inNonArrowFn t
    (r2.1, (r1.2.1).append r2.2.1, .cons r1.2.2 r2.2.2)

/-- Walk of object-literal fields. -/
def walkFieldList (cfg : WalkCfg) (st : WState) (locals : List String)
    (atProg inFn inNonArrowFn : Bool) : JSFieldList → WState × JSStmtList × JSFieldList
  | .nil => (st, .nil, .nil)
  | .cons k v t =>
    let r1 := walkExpr cfg st locals atProg inFn inNonArrowFn v
    let r2 := walkFieldList cfg r1.1 locals atProg inFn inNonArrowFn t
    (r2.1, (r1.2.1).append r2.2.1, .cons k r1.2.2 r2.2.2)

/-- Walk of one statement; returns the statements that replace it
(insertions before it, then the statement itself; an import declaration
is removed). -/
def walkStmt (cfg : WalkCfg) (st : WState) (locals : List String)
    (atProg inFn inNonArrowFn : Bool) : JSStmt → WState × JSStmtList
  | .exprStmt e =>
    let r := walkExpr cfg st locals atProg inFn inNonArrowFn e
    (r.1, (r.2.1).append (.cons (.exprStmt r.2.2) .nil))
  | .varDeclInit pat init =>
    match init with
    | .awaitE (.call c args) =>
      -- the await-import declarator shapes feed the object-pattern
      -- properties to the call handler (hoist.js lines 583-600); when
      -- the handler declines it leaves the state unchanged and the call
      -- is walked like any other expression
      match callExpressionVisit cfg st locals atProg inFn
          (match pat with | .objPat ps => some ps | _ => none) c args with
      | (st1, some repl) =>
        (st1, .cons (.varDeclInit pat (.awaitE repl)) .nil)
      | (_, none) =>
        let r := walkExpr cfg st locals atProg inFn inNonArrowFn init
        (r.1, (r.2.1).append (.cons (.varDeclInit pat r.2.2) .nil))
    | _ =>
      let r := walkExpr cfg st locals atProg inFn inNonArrowFn init
      (r.1, (r.2.1).append (.cons (.varDeclInit pat r.2.2) .nil))
  | .varDeclBare pat => (st, .cons (.varDeclBare pat) .nil)
  | .ret a =>
    let r := walkExpr cfg st locals atProg inFn inNonArrowFn a
    (r.1, (r.2.1).append (.cons (.ret r.2.2) .nil))
  | .retVoid => (st, .cons .retVoid .nil)
  | .funcDecl n ps b =>
    let r := walkStmtList cfg st (n :: ps ++ collectVars b ++ locals) false true true b
    (r.1, .cons (.funcDecl n ps r.2) .nil)
  | .importDecl src => (importDeclarationVisit cfg st src, .nil)

/-- Walk of a statement list. -/
def walkStmtList (cfg : WalkCfg) (st : WState) (locals : List String)
    (atProg inFn inNonArrowFn : Bool) : JSStmtList → WState × JSStmtList
  | .nil => (st, .nil)
  | .cons h t =>
    let r1 := walkStmt cfg st locals atProg inFn inNonArrowFn h
    let r2 := walkStmtList cfg r1.1 locals atProg inFn inNonArrowFn t
    (r2.1, (r1.2).append r2.2)
end

/-!
## Program exit and the hoist entry point
-/

/-- ESMODULE_TEMPLATE (hoist.js lines 69-71). -/
def esModuleStmt : JSStmt :=
  .exprStmt (.assign (.member (.ident "exports") (.static "__esModule")) (.boolLit true))

/-- WRAPPER_TEMPLATE (hoist.js lines 57-67): var NAME = (function () a
body declaring exports and module, the original body, and
return module.exports end).call(with an empty object). -/
def wrapperStmt (name : String) (body : JSStmtList) : JSStmt :=
  .varDeclInit (.id name)
    (.call
      (.member
        (.funcExpr []
          (.cons (.varDeclInit (.id "exports") .thisE)
            (.cons (.varDeclInit (.id "module") (.objLit (.cons "exports" .thisE .nil)))
              (body.append (.cons (.ret (.member (.ident "module") (.static "exports"))) .nil)))))
        (.static "call"))
      (.cons (.objLit .nil) .nil))

/-- Program.exit (hoist.js lines 252-306). Declarations pushed by
scope.push and the hoisted require statements sit at the top of the
program body. When wrapping: the __esModule preamble if the module is
an ES module, then the wrapper around the whole body, the namespace
symbol, and isCommonJS. Otherwise: rename every program binding without
the asset prefix, declare the exports object if it is referenced but
unbound, and update the symbol table. Returns the final symbol table,
isCommonJS, and program body. -/
def programExit (cfg : WalkCfg) (st : WState) (walked : JSStmtList) :
    List (String × String) × Bool × JSStmtList :=
  let exportsName := getName cfg.asset.id ["exports"]
  let body0 := st.pushed.append (st.hoisted.append walked)
  if cfg.shouldWrap then
    let body1 := if cfg.isES6 then JSStmtList.cons esModuleStmt body0 else body0
    (symSet st.symbols "*" exportsName, true,
     .cons (wrapperStmt exportsName body1) .nil)
  else
    let body1 := (collectVars body0).foldl
      (fun b nm =>
        if strHasPrefix nm ("$" ++ cfg.asset.id) then b
        else renameStmtList nm (getName cfg.asset.id ["var", nm]) b)
      body0
    let body2 :=
      if freeRefStmtList (collectVars body1) exportsName body1
          && !(collectVars body1).contains exportsName then
        JSStmtList.cons (.varDeclInit (.id exportsName) (.objLit .nil)) body1
      else body1
    let symbols2 :=
      if st.metaIsCommonJS then
        symSet (if cfg.bailedOut then [] else st.symbols) "*" exportsName
      else st.symbols
    (symbols2, st.metaIsCommonJS, body2)

/-- The observable result of the transform: the asset symbol table, meta
fields, dependencies, and the rewritten program body. -/
structure HoistOut where
  symbols : List (String × String)
  metaIsCommonJS : Bool
  metaIsES6Module : Bool
  metaResolveExportsBailedOut : Bool
  metaId : String
  metaExportsIdentifier : String
  deps : List Dep
  body : JSStmtList
deriving DecidableEq

/-- Program.enter (hoist.js lines 105-250): symbols.ensure, meta.id and
meta.exportsIdentifier, the pre-scan (including its return rewriting and
any self-dependencies from the bail-out), the CommonJS default of lines
242-246, and the scope data (shouldWrap, cjsExportsReassigned). Returns
the read-only walk configuration, the initial mutable walk state, and
the pre-scanned body. -/
def programEnter (a : AssetCfg) (symbols0 : Option (List (String × String)))
    (deps0 : List Dep) (body : JSStmtList) : WalkCfg × WState × JSStmtList :=
  let ensured := symbols0.getD []
  let pre := preScanProgram body
  let deps1 := deps0 ++ List.replicate pre.1.selfDeps (selfDependency a)
  let defaultCJS := !pre.1.isCJS && !pre.1.isES6
  let symbols1 := if defaultCJS then symSet ensured "*" (getName a.id ["exports"]) else ensured
  let isCJS1 := pre.1.isCJS || defaultCJS
  ({ asset := a, shouldWrap := pre.1.shouldWrap, isES6 := pre.1.isES6,
     bailedOut := pre.1.bailedOut },
   { symbols := symbols1, metaIsCommonJS := isCJS1, cjsExportsReassigned := false,
     deps := deps1, progBindings := collectVars body, pushed := .nil, hoisted := .nil },
   pre.2)

/-- The whole visitor run: Program.enter, the body walk, and
Program.exit. -/
def runTransform (a : AssetCfg) (symbols0 : Option (List (String × String)))
    (deps0 : List Dep) (body : JSStmtList) : HoistOut :=
  let en := programEnter a symbols0 deps0 body
  let w := walkStmtList en.1 en.2.1 [] true false false en.2.2
  let ex := programExit en.1 w.1 w.2
  { symbols := ex.1,
    metaIsCommonJS := ex.2.1,
    metaIsES6Module := if en.1.shouldWrap then false else en.1.isES6,
    metaResolveExportsBailedOut := en.1.bailedOut,
    metaId := a.id,
    metaExportsIdentifier := getName a.id ["exports"],
    deps := w.1.deps,
    body := ex.2.2 }

/-- The failure kinds of the transform. -/
inductive HoistError where
  | unsupportedAST
deriving DecidableEq

/-- A tagged syntax tree as handed to hoist. -/
structure BabelAST where
  astType : String
  version : String
  program : JSStmtList
deriving DecidableEq

/-- hoist(asset, ast) (hoist.js lines 94-101): reject a tree that is not
tagged babel 7.0.0 before touching anything; otherwise run the visitor
over the program and return the mutated result. -/
def hoist (a : AssetCfg) (symbols0 : Option (List (String × String)))
    (deps0 : List Dep) (ast : BabelAST) : Except HoistError HoistOut :=
  if ast.astType != "babel" || ast.version != "7.0.0" then .error .unsupportedAST
  else .ok (runTransform a symbols0 deps0 ast.program)

/-!
## Concrete inputs shared by the scenario claims
-/

/-- A concrete asset: id a1, a browser-environment module. -/
def assetA1 : AssetCfg := { id := "a1", filePath := "/proj/m.js", envIsNode := false }

/-- The input program of claim C2: exports.foo = 1; -/
def c2Program : JSStmtList :=
  .cons (.exprStmt (.assign (.member (.ident "exports") (.static "foo")) (.num 1))) .nil

/-- The input program of claim C3's witness: eval("x"); -/
def c3Program : JSStmtList :=
  .cons (.exprStmt (.call (.ident "eval") (.cons (.str "x") .nil))) .nil

/-- The declared async dependency of claim C5 for the specifier ./m. -/
def c5Dep : Dep :=
  { id := "d1", moduleSpecifier := "./m", isAsync := true,
    metaShouldWrap := false, metaIsCommonJS := false, symbols := none }

/-- The input program of claim C5:
let (destructuring a, b) = await import("./m"); - the dependency pass
has already rewritten import(...) to require(...). -/
def c5Program : JSStmtList :=
  .cons (.varDeclInit
    (.objPat [.prop (.id "a") "a", .prop (.id "b") "b"])
    (.awaitE (.call (.ident "require") (.cons (.str "./m") .nil)))) .nil

/-- A walk configuration of a wrapped module over assetA1. -/
def wrapCfg : WalkCfg :=
  { asset := assetA1, shouldWrap := true, isES6 := false, bailedOut := false }

/-- An empty walk state. -/
def emptyWState : WState :=
  { symbols := [], metaIsCommonJS := false, cjsExportsReassigned := false,
    deps := [], progBindings := [], pushed := .nil, hoisted := .nil }

/-!
## Claim C2
-/

/-- C2, counterexample. On the input exports.foo = 1; the transform
produces the foo export symbol and the hoisted declaration, but the
output contains no call to $parcel$export: the CommonJS assignment
rewrite (hoist.js lines 436-497) replaces the assignment with
an assignment to the exports object member and inserts the var
declaration; the $parcel$export template is only emitted by the ES
export handlers. The claim asserts such a call is present, so it fails
on this input. -/
theorem c2_counterexample :
    ∃ res, hoist assetA1 none []
        { astType := "babel", version := "7.0.0", program := c2Program } = Except.ok res
      ∧ symLookup res.symbols "foo" = some "$a1$export$foo"
      ∧ callsToStmtList "$parcel$export" res.body = false :=
  ⟨_, rfl, rfl, rfl⟩

/-- C2 (amended): for the input exports.foo = 1; with no local exports
binding: isCommonJS is true, the module is not wrapped, the symbol table
has entry foo with local name dollar-a1-dollar-export-dollar-foo, the
output contains the hoisted declaration assigning 1 to that export
variable and the rewritten assignment of it onto the exports object
(and no $parcel$export call - the claim expected one), and the symbol
table has a namespace entry. The full output equality exhibits all of
this. -/
theorem c2_cjs_static_export :
    hoist assetA1 none []
        { astType := "babel", version := "7.0.0", program := c2Program }
      = Except.ok
        { symbols := [("foo", "$a1$export$foo"), ("*", "$a1$exports")],
          metaIsCommonJS := true,
          metaIsES6Module := false,
          metaResolveExportsBailedOut := false,
          metaId := "a1",
          metaExportsIdentifier := "$a1$exports",
          deps := [],
          body := .cons (.varDeclInit (.id "$a1$exports") (.objLit .nil))
            (.cons (.varDeclInit (.id "$a1$export$foo") (.num 1))
              (.cons (.exprStmt (.assign
                (.member (.ident "$a1$exports") (.static "foo"))
                (.ident "$a1$export$foo"))) .nil)) } := rfl

/-!
## Claim C3
-/

/-- C3: on every input whose pre-scan sets shouldWrap, the transform
succeeds, the program body becomes the single wrapper declaration
var (asset exports name) = (function () var exports = this;
var module = (exports: this); body; return module.exports end).call(()),
the symbol table maps the namespace to the asset exports identifier,
isCommonJS is true and isES6Module is false. (The body inside the
wrapper is the walked body, preceded by the exports.__esModule = true
preamble when the module was also an ES module, hoist.js lines
256-272.) -/
theorem c3_wrapped_invariants (a : AssetCfg) (symbols0 : Option (List (String × String)))
    (deps0 : List Dep) (body : JSStmtList)
    (h : (preScanProgram body).1.shouldWrap = true) :
    ∃ res b,
      hoist a symbols0 deps0 { astType := "babel", version := "7.0.0", program := body }
          = Except.ok res
        ∧ res.body = JSStmtList.cons (wrapperStmt (getName a.id ["exports"]) b) .nil
        ∧ symLookup res.symbols "*" = some (getName a.id ["exports"])
        ∧ res.metaIsCommonJS = true
        ∧ res.metaIsES6Module = false := by
  unfold hoist
  rw [if_neg (by simp)]
  unfold runTransform programEnter programExit
  simp only [h, if_true]
  exact ⟨_, _, rfl, rfl, symLookup_symSet_self _ _ _, rfl, rfl⟩

/-- C3, witness: the program eval("x"); is pre-scanned as shouldWrap and
the wrapped-module invariants hold for it. -/
theorem c3_witness :
    (preScanProgram c3Program).1.shouldWrap = true
    ∧ ∃ res b,
        hoist assetA1 none []
            { astType := "babel", version := "7.0.0", program := c3Program }
            = Except.ok res
          ∧ res.body = JSStmtList.cons (wrapperStmt (getName assetA1.id ["exports"]) b) .nil
          ∧ symLookup res.symbols "*" = some (getName assetA1.id ["exports"])
          ∧ res.metaIsCommonJS = true
          ∧ res.metaIsES6Module = false :=
  ⟨rfl, c3_wrapped_invariants assetA1 none [] c3Program rfl⟩

/-!
## Claim C4
-/

/-- C4: on every input tree on which the pre-scan set neither
isES6Module nor isCommonJS, the Program-enter phase ends with
isCommonJS true and the asset symbol table mapping the namespace to
the asset exports name (hoist.js lines 242-246). -/
theorem c4_commonjs_default (a : AssetCfg) (symbols0 : Option (List (String × String)))
    (deps0 : List Dep) (body : JSStmtList)
    (hc : (preScanProgram body).1.isCJS = false)
    (he : (preScanProgram body).1.isES6 = false) :
    (programEnter a symbols0 deps0 body).2.1.metaIsCommonJS = true
    ∧ symLookup (programEnter a symbols0 deps0 body).2.1.symbols "*"
        = some (getName a.id ["exports"]) := by
  unfold programEnter
  simp only [hc, he, Bool.not_false, Bool.and_self, if_true, Bool.false_or]
  exact ⟨by trivial, symLookup_symSet_self _ _ _⟩

/-- C4, witness: the empty program sets neither flag, and the enter
phase defaults it to CommonJS with the namespace symbol. -/
theorem c4_witness :
    (preScanProgram .nil).1.isCJS = false
    ∧ (preScanProgram .nil).1.isES6 = false
    ∧ ((programEnter assetA1 none [] .nil).2.1.metaIsCommonJS = true
        ∧ symLookup (programEnter assetA1 none [] .nil).2.1.symbols "*"
            = some (getName assetA1.id ["exports"])) :=
  ⟨rfl, rfl, c4_commonjs_default assetA1 none [] .nil rfl rfl⟩

/-!
## Claim C5
-/

/-- C5: for the input let (destructuring a, b) = await import("./m");
with the declared async dependency ./m, the transform fills the
dependency symbol table with exactly the entries a and b, whose locals
are the importAsync names built from the asset id, the dependency id and
the member names, and adds no namespace entry to that table. -/
theorem c5_dynamic_import_destructured :
    ∃ res,
      hoist assetA1 none [c5Dep]
          { astType := "babel", version := "7.0.0", program := c5Program }
          = Except.ok res
        ∧ res.deps.map (fun d => d.symbols)
            = [some [("a", "$a1$importAsync$d1$a"), ("b", "$a1$importAsync$d1$b")]]
        ∧ res.deps.map (fun d => symLookup (d.symbols.getD []) "*") = [none] :=
  ⟨_, rfl, rfl, rfl⟩

/-!
## Claim C6
-/

/-- C6, counterexample. The claim states that on a wrapped module none
of the CommonJS-rewriter substitutions is applied. But the free-global
rewrite of the ReferencedIdentifier handler (hoist.js lines 359-361) is
not guarded by the shouldWrap scope data: on a wrapped-module
configuration it still replaces a free global reference by
$parcel$global. -/
theorem c6_counterexample :
    wrapCfg.shouldWrap = true
    ∧ referencedIdentifierVisit wrapCfg emptyWState [] "global"
        = (emptyWState, some (.ident "$parcel$global")) :=
  ⟨rfl, rfl⟩

/-- C6 (amended): every substitution of the CommonJS rewriter except the
free-global rewrite is performed only when the scope is not marked
shouldWrap; under shouldWrap the member-expression, typeof, this,
assignment and free-exports handlers do nothing, while a free global
reference is still rewritten to $parcel$global regardless of
shouldWrap. -/
theorem c6_cjs_rewriter_wrap_guard (cfg : WalkCfg) (h : cfg.shouldWrap = true) :
    (∀ (st : WState) (locals : List String) (obj : JSExpr) (prop : JSProp),
        memberExpressionVisit cfg st locals obj prop = (st, none))
    ∧ (∀ (st : WState) (locals : List String) (arg : JSExpr),
        unaryExpressionVisit cfg st locals arg = none)
    ∧ (∀ (st : WState) (b : Bool), thisExpressionVisit cfg st b = (st, none))
    ∧ (∀ (st : WState) (locals : List String) (atProg : Bool) (l : JSExpr),
        assignmentEnter cfg st locals atProg l = (st, .keep))
    ∧ (∀ (st : WState) (locals : List String) (n : String), n ≠ "global" →
        referencedIdentifierVisit cfg st locals n = (st, none))
    ∧ (∀ (st : WState) (locals : List String),
        (st.progBindings ++ locals).contains "global" = false →
        referencedIdentifierVisit cfg st locals "global"
          = (st, some (.ident "$parcel$global"))) := by
  refine ⟨?_, ?_, ?_, ?_, ?_, ?_⟩
  · intro st locals obj prop
    simp [memberExpressionVisit, h]
  · intro st locals arg
    cases arg <;> simp [unaryExpressionVisit, h]
  · intro st b
    simp [thisExpressionVisit, h]
  · intro st locals atProg l
    simp [assignmentEnter, h]
  · intro st locals n hn
    simp [referencedIdentifierVisit, h, hn]
  · intro st locals hg
    simp at hg
    simp [referencedIdentifierVisit, h, hg]

/-- C6, witness: on the wrapped configuration over assetA1 the guarded
handlers are inert on concrete nodes while the free-global rewrite still
fires. -/
theorem c6_witness :
    wrapCfg.shouldWrap = true
    ∧ memberExpressionVisit wrapCfg emptyWState [] (.ident "module") (.static "exports")
        = (emptyWState, none)
    ∧ referencedIdentifierVisit wrapCfg emptyWState [] "exports" = (emptyWState, none)
    ∧ referencedIdentifierVisit wrapCfg emptyWState [] "global"
        = (emptyWState, some (.ident "$parcel$global")) :=
  ⟨rfl,
   (c6_cjs_rewriter_wrap_guard wrapCfg rfl).1 emptyWState [] (.ident "module") (.static "exports"),
   (c6_cjs_rewriter_wrap_guard wrapCfg rfl).2.2.2.2.1 emptyWState [] "exports" (by decide),
   (c6_cjs_rewriter_wrap_guard wrapCfg rfl).2.2.2.2.2 emptyWState [] rfl⟩

/-!
## Claim C7
-/

/-- C7: a require(s) call with a single string-literal argument, no
local require binding, and no declared dependency whose moduleSpecifier
equals s, is left completely unmodified: the handler returns no
replacement and the state - asset and dependency metadata - is exactly
the input state (hoist.js lines 524-531). -/
theorem c7_unknown_require_untouched (cfg : WalkCfg) (st : WState)
    (locals : List String) (atTopStmt underFn : Bool)
    (ctxProps : Option (List PatProp)) (s : String)
    (hr : (st.progBindings ++ locals).contains "require" = false)
    (hd : ∀ d ∈ st.deps, d.moduleSpecifier ≠ s) :
    callExpressionVisit cfg st locals atTopStmt underFn ctxProps
        (.ident "require") (.cons (.str s) .nil)
      = (st, none) := by
  have hfind : st.deps.find? (fun d => d.moduleSpecifier == s) = none := by
    rw [List.find?_eq_none]
    intro d hdmem
    simpa using hd d hdmem
  simp [callExpressionVisit, hr, hfind, isIdent]

/-- C7, witness: a require of ./missing against a state declaring only
the dependency ./m is a no-op. -/
theorem c7_witness :
    (({ emptyWState with deps := [c5Dep] } : WState).progBindings ++ []).contains "require"
        = false
    ∧ (∀ d ∈ ({ emptyWState with deps := [c5Dep] } : WState).deps,
        d.moduleSpecifier ≠ "./missing")
    ∧ callExpressionVisit wrapCfg { emptyWState with deps := [c5Dep] } [] true false none
        (.ident "require") (.cons (.str "./missing") .nil)
      = ({ emptyWState with deps := [c5Dep] }, none) :=
  ⟨rfl, by decide,
   c7_unknown_require_untouched wrapCfg { emptyWState with deps := [c5Dep] } [] true false
     none "./missing" rfl (by decide)⟩

/-!
## Claim C9
-/

/-- C9: a require.resolve(s) call with a single string-literal argument
and no local require binding is rewritten to
$parcel$require$resolve(asset id, s) unconditionally: the handler never
consults the dependency list (the state, dependencies included, is
arbitrary and returned unchanged), unlike plain require(s) which is left
untouched when s matches no dependency (hoist.js lines 664-671). -/
theorem c9_require_resolve_unconditional (cfg : WalkCfg) (st : WState)
    (locals : List String) (atTopStmt underFn : Bool)
    (ctxProps : Option (List PatProp)) (p : JSProp) (s : String)
    (hp : propText p = some "resolve")
    (hr : (st.progBindings ++ locals).contains "require" = false) :
    callExpressionVisit cfg st locals atTopStmt underFn ctxProps
        (.member (.ident "require") p) (.cons (.str s) .nil)
      = (st, some (.call (.ident "$parcel$require$resolve")
          (.cons (.str cfg.asset.id) (.cons (.str s) .nil)))) := by
  simp at hr
  simp [callExpressionVisit, hr, isIdent, matchesPat2, hp]

/-- C9, witness: require.resolve("./missing") is rewritten even though
the state declares no dependency at all. -/
theorem c9_witness :
    propText (.static "resolve") = some "resolve"
    ∧ (emptyWState.progBindings ++ []).contains "require" = false
    ∧ callExpressionVisit wrapCfg emptyWState [] true false none
        (.member (.ident "require") (.static "resolve"))
        (.cons (.str "./missing") .nil)
      = (emptyWState, some (.call (.ident "$parcel$require$resolve")
          (.cons (.str wrapCfg.asset.id) (.cons (.str "./missing") .nil)))) :=
  ⟨rfl, rfl,
   c9_require_resolve_unconditional wrapCfg emptyWState [] true false none
     (.static "resolve") "./missing" rfl rfl⟩

/-!
## Claim C8
-/

/-- C8: hoist raises the UnsupportedAST failure exactly when the tree's
type tag is not babel or its version is not 7.0.0; on every recognized
tree no such error is raised (the result is the transformed output). In
this functional model the error case returns nothing but the error, so
nothing is mutated. -/
theorem c8_unsupported_ast (a : AssetCfg) (symbols0 : Option (List (String × String)))
    (deps0 : List Dep) (ast : BabelAST) :
    hoist a symbols0 deps0 ast = Except.error HoistError.unsupportedAST
      ↔ ¬(ast.astType = "babel" ∧ ast.version = "7.0.0") := by
  unfold hoist
  split
  next h =>
    simp only [bne_iff_ne, Bool.or_eq_true, ne_eq] at h
    simp only [true_iff]
    tauto
  next h =>
    simp only [bne_iff_ne, Bool.or_eq_true, ne_eq] at h
    push_neg at h
    simp [h.1, h.2]

end Hoist
